import Mathlib

/-!
# Verification of the MyOS task-scheduling and memory-management core

Shallow embedding of the MyOS kernel core (`src/MyOS/kernel/mm.c`,
`src/kernel/task.c`) together with proofs of the specified properties.

The embedding follows the C source function by function:
* the heap allocator (`kmalloc` / `kfree` / `krealloc`) is
  modelled as a list of contiguous blocks, each carrying its payload size,
  free flag and payload bytes; block addresses are recovered from the layout
  (header size + payload size of every preceding block);
* the physical frame allocator (`init_paging` / `alloc_frame`) is modelled
  with the bitmap as a natural number whose bit `8 * (frame / 8) + frame % 8`
  is the bit the C code stores in `physical_bitmap[frame / 8]`;
* the scheduler (`task.c`) is modelled as an explicit state record with the
  global task list, the five ready queues, the current task and the
  statistics; the intrusive doubly linked lists of the sources become Lean
  lists of task ids.
-/

namespace MyOS

/-! ## Heap allocator (`src/MyOS/kernel/mm.c`)

A heap is a list of contiguous blocks.  Each block occupies
`HEADER_SIZE + size` bytes: header first, then the payload.  The address of
a block is determined by its position (`mm_init` places the first block at
the start of the arena).  `data` models the payload bytes; its length is
`size` for every heap produced by the modelled operations. -/

structure HeapBlock where
  /-- `heap_block_t.size`: payload size in bytes. -/
  size : Nat
  /-- `heap_block_t.free`. -/
  free : Bool
  /-- payload bytes of the block. -/
  data : List Nat
  deriving Repr, DecidableEq

/-- `sizeof(heap_block_t)`: `size_t` + padded `bool` + two pointers. -/
def HEADER_SIZE : Nat := 32

/-- `kmalloc` alignment: `size = (size + 7) & ~7` (round up to 8 bytes). -/
def alignUp8 (n : Nat) : Nat := (n + 7) / 8 * 8

/-- `mm_init(heap_start_addr, heap_size)`: a single free block spanning the
arena; its payload size is `heap_size - sizeof(heap_block_t)`.  Payload bytes
are uninitialised memory; the model takes them to be zero. -/
def mm_init (heap_size : Nat) : List HeapBlock :=
  [⟨heap_size - HEADER_SIZE, true, List.replicate (heap_size - HEADER_SIZE) 0⟩]

/-- First-fit scan of `kmalloc`, carrying the address `addr` of the current
block's header (offset from the arena start).  Returns the payload offset of
the served block and the new block list.  A matched free block is split when
`current->size > size + sizeof(heap_block_t) + 8`. -/
def kmallocGo (size : Nat) : Nat → List HeapBlock → Option (Nat × List HeapBlock)
  | _, [] => none
  | addr, b :: rest =>
    if b.free ∧ size ≤ b.size then
      if size + HEADER_SIZE + 8 < b.size then
        some (addr + HEADER_SIZE,
          ⟨size, false, b.data.take size⟩ ::
          ⟨b.size - size - HEADER_SIZE, true, b.data.drop (size + HEADER_SIZE)⟩ :: rest)
      else
        some (addr + HEADER_SIZE, ⟨b.size, false, b.data⟩ :: rest)
    else
      match kmallocGo size (addr + HEADER_SIZE + b.size) rest with
      | none => none
      | some (p, rest') => some (p, b :: rest')

/-- `kmalloc(size)`: `NULL` for `size == 0`, otherwise a first-fit scan from
the heap head with the size rounded up to an 8-byte boundary.  Pointers are
payload offsets from the arena start; `none` is the `NULL` return. -/
def kmalloc (h : List HeapBlock) (size : Nat) : Option Nat × List HeapBlock :=
  if size = 0 then (none, h)
  else
    match kmallocGo (alignUp8 size) 0 h with
    | none => (none, h)
    | some (p, h') => (some p, h')

/-- `kfree` after the block has been marked free: coalesce with the next
block if that block is free (`block->size += block->next->size +
sizeof(heap_block_t)`).  The absorbed header bytes become payload bytes; the
model takes them to be zero. -/
def freeHead : List HeapBlock → List HeapBlock
  | [] => []
  | b :: rest =>
    match rest with
    | c :: rest' =>
      if c.free then
        ⟨b.size + c.size + HEADER_SIZE, true,
          b.data ++ List.replicate HEADER_SIZE 0 ++ c.data⟩ :: rest'
      else ⟨b.size, true, b.data⟩ :: c :: rest'
    | [] => [⟨b.size, true, b.data⟩]

/-- `kfree(ptr)` body: walk the block list looking for the block whose
payload starts at `ptr`; mark it free, coalesce with the next block if free,
then with the previous block if free, in that order.  A pointer matching no
block header leaves the heap unchanged (the C code's bounds check rejects
pointers outside the arena; in-arena pointers always address a block). -/
def kfreeGo (ptr : Nat) : Nat → List HeapBlock → List HeapBlock
  | _, [] => []
  | addr, b :: rest =>
    if ptr = addr + HEADER_SIZE then
      freeHead (b :: rest)
    else
      match rest with
      | [] => [b]
      | c :: rest' =>
        if ptr = addr + HEADER_SIZE + b.size + HEADER_SIZE then
          -- `b` is the previous block of the freed block `c`.
          match freeHead (c :: rest') with
          | [] => [b]
          | c' :: rest'' =>
            if b.free then
              ⟨b.size + c'.size + HEADER_SIZE, true,
                b.data ++ List.replicate HEADER_SIZE 0 ++ c'.data⟩ :: rest''
            else b :: c' :: rest''
        else
          b :: kfreeGo ptr (addr + HEADER_SIZE + b.size) rest

/-- `kfree(ptr)`. -/
def kfree (h : List HeapBlock) (ptr : Nat) : List HeapBlock :=
  kfreeGo ptr 0 h

/-- Look up the block whose payload starts at `ptr`
(`block = (heap_block_t*)((uint8_t*)ptr - sizeof(heap_block_t))`). -/
def blockAt (ptr : Nat) : Nat → List HeapBlock → Option HeapBlock
  | _, [] => none
  | addr, b :: rest =>
    if ptr = addr + HEADER_SIZE then some b
    else blockAt ptr (addr + HEADER_SIZE + b.size) rest

/-- `blockAt` from the arena start. -/
def heapLookup (h : List HeapBlock) (ptr : Nat) : Option HeapBlock :=
  blockAt ptr 0 h

/-- Overwrite the first `bytes.length` payload bytes of the block whose
payload starts at `ptr` (the effect of `memcpy(ptr, ..., n)`). -/
def writeBytesGo (ptr : Nat) (bytes : List Nat) : Nat → List HeapBlock → List HeapBlock
  | _, [] => []
  | addr, b :: rest =>
    if ptr = addr + HEADER_SIZE then
      ⟨b.size, b.free, bytes ++ b.data.drop bytes.length⟩ :: rest
    else
      b :: writeBytesGo ptr bytes (addr + HEADER_SIZE + b.size) rest

/-- `memcpy` destination update from the arena start. -/
def writeBytes (h : List HeapBlock) (ptr : Nat) (bytes : List Nat) : List HeapBlock :=
  writeBytesGo ptr bytes 0 h

/-- Read `n` payload bytes at `ptr` (the source side of `memcpy`). -/
def readBytes (h : List HeapBlock) (ptr : Nat) (n : Nat) : List Nat :=
  match heapLookup h ptr with
  | none => []
  | some b => b.data.take n

/-- `krealloc(ptr, new_size)`: `kmalloc` for a null pointer; free and return
`NULL` for `new_size == 0`; return the pointer unchanged when the block's
size already satisfies the request; otherwise allocate, copy
`min(old_size, new_size)` bytes, free the old block.  The C code reads
`block->size` through the raw pointer; the model reads it with
`heapLookup`, which agrees on every pointer returned by the allocator. -/
def krealloc (h : List HeapBlock) (ptr : Option Nat) (new_size : Nat) :
    Option Nat × List HeapBlock :=
  match ptr with
  | none => kmalloc h new_size
  | some p =>
    if new_size = 0 then (none, kfree h p)
    else
      match heapLookup h p with
      | none => (none, h)
      | some b =>
        if new_size ≤ b.size then (some p, h)
        else
          match kmalloc h new_size with
          | (none, h') => (none, h')
          | (some q, h') =>
            (some q, kfree (writeBytes h' q
              (readBytes h' p (min b.size new_size))) p)

/-- No two adjacent blocks of the list are both marked free
(the eager-coalescing invariant of the heap). -/
def noAdjacentFree (l : List HeapBlock) : Prop :=
  List.Chain' (fun a b => ¬(a.free = true ∧ b.free = true)) l

/-- Executable check for `noAdjacentFree`. -/
def noAdjacentFreeB : List HeapBlock → Bool
  | [] => true
  | [_] => true
  | a :: b :: rest => (!(a.free && b.free)) && noAdjacentFreeB (b :: rest)

theorem noAdjacentFreeB_iff (l : List HeapBlock) :
    noAdjacentFreeB l = true ↔ noAdjacentFree l := by
  induction l with
  | nil => simp [noAdjacentFreeB, noAdjacentFree]
  | cons a t ih =>
    cases t with
    | nil => simp [noAdjacentFreeB, noAdjacentFree]
    | cons b t' =>
      unfold noAdjacentFree at ih ⊢
      rw [List.chain'_cons]
      unfold noAdjacentFreeB
      rw [Bool.and_eq_true, Bool.not_eq_true', ih]
      constructor
      · rintro ⟨hab, ht⟩
        refine ⟨fun hc => ?_, ht⟩
        rw [hc.1, hc.2] at hab
        simp at hab
      · rintro ⟨hab, ht⟩
        refine ⟨?_, ht⟩
        cases hf : a.free <;> cases hg : b.free <;> simp_all

instance : DecidablePred noAdjacentFree := fun l =>
  decidable_of_iff (noAdjacentFreeB l = true) (noAdjacentFreeB_iff l)

/-! ## Physical frame allocator (`src/MyOS/kernel/mm.c`)

The C code keeps the bitmap as a byte array: frame `f` is bit `f % 8` of
`physical_bitmap[f / 8]`.  The model packs the bytes into one natural
number, so that bit `b` of byte `y` is bit `8 * y + b` of `bitmap`. -/

def PAGE_SIZE : Nat := 4096

structure FrameState where
  /-- `total_memory` in bytes. -/
  total_memory : Nat
  /-- the packed `physical_bitmap` byte array. -/
  bitmap : Nat
  /-- `next_free_frame` allocation hint. -/
  next_free_frame : Nat
  deriving Repr, DecidableEq

/-- Bit position of frame `f`: bit `f % 8` of byte `f / 8`. -/
def frameBitIndex (frame : Nat) : Nat := 8 * (frame / 8) + frame % 8

/-- `is_frame_used`: `physical_bitmap[frame / 8] & (1 << (frame % 8))`. -/
def is_frame_used (st : FrameState) (frame : Nat) : Bool :=
  st.bitmap.testBit (frameBitIndex frame)

/-- `set_frame_used`: `physical_bitmap[frame / 8] |= 1 << (frame % 8)`. -/
def set_frame_used (st : FrameState) (frame : Nat) : FrameState :=
  { st with bitmap := st.bitmap ||| (1 <<< frameBitIndex frame) }

/-- `clear_frame_used`: `physical_bitmap[frame / 8] &= ~(1 << (frame % 8))`.
On naturals, clearing a set bit subtracts its value. -/
def clear_frame_used (st : FrameState) (frame : Nat) : FrameState :=
  if st.bitmap.testBit (frameBitIndex frame) then
    { st with bitmap := st.bitmap - (1 <<< frameBitIndex frame) }
  else st

/-- `bitmap_size = (total_memory / PAGE_SIZE) / 8`. -/
def bitmap_size (total_memory : Nat) : Nat := total_memory / PAGE_SIZE / 8

/-- The `for` loop of `init_paging` marking frames `0 .. n-1` used. -/
def markFramesUsedBelow : Nat → FrameState → FrameState
  | 0, st => st
  | n + 1, st => set_frame_used (markFramesUsedBelow n st) n

/-- `init_paging()`: 128 MiB total memory, cleared bitmap, the first 4 MiB
(kernel space) marked used. -/
def init_paging : FrameState :=
  markFramesUsedBelow (0x400000 / PAGE_SIZE)
    { total_memory := 128 * 1024 * 1024, bitmap := 0, next_free_frame := 0 }

/-- One scan loop of `alloc_frame`: try frames `i, i+1, ...` for `fuel`
iterations, returning the first free frame index. -/
def scanFreeFrame (st : FrameState) : Nat → Nat → Option Nat
  | _, 0 => none
  | i, fuel + 1 =>
    if ¬is_frame_used st i then some i else scanFreeFrame st (i + 1) fuel

/-- `alloc_frame()`: scan from `next_free_frame` to the end, then wrap and
scan from the start; mark the found frame used, move the hint one past it
and return its byte address.  Returns `0` (the out-of-memory sentinel) when
no frame is free. -/
def alloc_frame (st : FrameState) : Nat × FrameState :=
  match scanFreeFrame st st.next_free_frame
      (st.total_memory / PAGE_SIZE - st.next_free_frame) with
  | some i => (i * PAGE_SIZE, { set_frame_used st i with next_free_frame := i + 1 })
  | none =>
    match scanFreeFrame st 0 st.next_free_frame with
    | some i => (i * PAGE_SIZE, { set_frame_used st i with next_free_frame := i + 1 })
    | none => (0, st)

/-- `free_frame(frame_addr)`. -/
def free_frame (st : FrameState) (frame_addr : Nat) : FrameState :=
  let frame := frame_addr / PAGE_SIZE
  if frame < st.total_memory / PAGE_SIZE then
    let st' := clear_frame_used st frame
    if frame < st'.next_free_frame then { st' with next_free_frame := frame }
    else st'
  else st

/-! ## Tasks and the scheduler (`src/kernel/task.c`)

A `task_t` record carries a single pair of intrusive `next`/`prev`
pointers, and that one pair is shared between the global task list
(head `task_list_head_ptr`) and the ready queue of the task's priority
(heads `ready_queues[5]`): `task_list_add` and `add_to_ready_queue`
write the same two fields.  The model therefore keeps every allocated
record in a store indexed by task id — a `task_t*` is the id of the
record it points to, `NULL` is `none` — and performs the pointer writes
of the C code one by one, in source order, so that the aliasing between
the two lists is preserved exactly.  List traversals follow the `next`
fields and are bounded by a fuel that dominates every acyclic walk
(on a cyclic chain the C loop would not terminate).  Register state
(`cpu_state_t`), the FPU save area and the page directory only feed the
external context-switch primitive and are not part of any scheduling
decision, so they are not carried in the model. -/

/-- `task_state_t`. -/
inductive TaskState where
  | running
  | ready
  | blocked
  | suspended
  | terminated
  deriving Repr, DecidableEq

/-- `task_priority_t` values: `PRIORITY_IDLE = 0` … `PRIORITY_CRITICAL = 4`. -/
def PRIORITY_IDLE : Nat := 0
def PRIORITY_LOW : Nat := 1
def PRIORITY_NORMAL : Nat := 2
def PRIORITY_HIGH : Nat := 3
def PRIORITY_CRITICAL : Nat := 4

abbrev TaskId := Nat

/-- The scheduling-relevant fields of `task_t`, including the single
intrusive `next`/`prev` pointer pair that the global task list and the
ready queues share. -/
structure TCB where
  id : TaskId
  name : String
  state : TaskState
  priority : Nat
  flags : Nat
  time_slice : Nat
  time_slice_remaining : Nat
  sleep_until : Nat
  cpu_time : Nat
  last_run : Nat
  context_switch_count : Nat
  exit_code : Int
  creation_time : Nat
  next : Option TaskId
  prev : Option TaskId
  deriving Repr, DecidableEq

/-- `scheduler_stats_t`.  The counters are `uint32_t`/`uint64_t` in C;
no claim depends on their wrap-around, so they are naturals here and the
decrements are truncated subtraction. -/
structure SchedulerStats where
  total_tasks : Nat
  ready_tasks : Nat
  blocked_tasks : Nat
  running_tasks : Nat
  context_switches : Nat
  total_cpu_time : Nat
  idle_time : Nat
  deriving Repr, DecidableEq

/-- The scheduler state: the static variables of `task.c` plus the external
timer (`ticks`, `freq`) the code consults through `timer_get_ticks()` /
`timer_get_frequency()`.  `store` is the kernel memory holding the live
TCB records, `task_list_head` is `task_list_head_ptr`, `queues p` is
`ready_queues[p]` (a head pointer, not a list).  `panicked` records an
invocation of `kernel_panic`. -/
structure Sched where
  store : List TCB
  task_list_head : Option TaskId
  queues : Nat → Option TaskId
  current : TaskId
  next_task_id : TaskId
  stats : SchedulerStats
  ticks : Nat
  freq : Nat
  quantum : Nat
  panicked : Bool

/-- Dereference a `task_t*` held as an id: find the record in the store
(the store is memory, so this is pointer dereference, not a list
traversal; the list-walking `task_get_by_id` is defined below). -/
def lookupTask (ts : List TCB) (tid : TaskId) : Option TCB :=
  ts.find? (fun t => t.id == tid)

/-- Mutate the record of the task with id `tid` in place. -/
def updateTask (ts : List TCB) (tid : TaskId) (f : TCB → TCB) : List TCB :=
  ts.map (fun t => if t.id = tid then f t else t)

/-- One store write `tid->next = v`. -/
def setTaskNext (s : Sched) (tid : TaskId) (v : Option TaskId) : Sched :=
  { s with store := updateTask s.store tid (fun u => { u with next := v }) }

/-- One store write `tid->prev = v`. -/
def setTaskPrev (s : Sched) (tid : TaskId) (v : Option TaskId) : Sched :=
  { s with store := updateTask s.store tid (fun u => { u with prev := v }) }

/-- One write `ready_queues[p] = v`. -/
def setQueueHead (s : Sched) (p : Nat) (v : Option TaskId) : Sched :=
  { s with queues := fun q => if q = p then v else s.queues q }

/-- `task_list_add`: push the task onto the front of the global task
list.  Note the writes go through the task's only `next`/`prev` pair —
the same fields the ready queues use — and that the previous head gets
`prev` pointed at the new task even when that head is currently linked
into a ready queue through these very fields. -/
def task_list_add (s : Sched) (tid : TaskId) : Sched :=
  match lookupTask s.store tid with
  | none => s
  | some _ =>
    let s1 := setTaskNext s tid s.task_list_head
    let s2 := setTaskPrev s1 tid none
    let s3 :=
      match s2.task_list_head with
      | some h => setTaskPrev s2 h (some tid)
      | none => s2
    { s3 with task_list_head := some tid }

/-- `add_to_ready_queue`: reject priorities above `PRIORITY_CRITICAL`,
otherwise push the task onto the front of its priority's queue — four
pointer writes in source order, overwriting whatever `next`/`prev`
currently hold (in particular the task's global-list links). -/
def add_to_ready_queue (s : Sched) (tid : TaskId) : Sched :=
  match lookupTask s.store tid with
  | none => s
  | some t =>
    if PRIORITY_CRITICAL < t.priority then s
    else
      let s1 := setTaskNext s tid (s.queues t.priority)
      let s2 :=
        match s1.queues t.priority with
        | some h => setTaskPrev s1 h (some tid)
        | none => s1
      let s3 := setQueueHead s2 t.priority (some tid)
      setTaskPrev s3 tid none

/-- `remove_from_ready_queue`: the unlink surgery of the C code.  When
`task->prev` is non-null the code bypasses the task through its
neighbour and never touches `ready_queues[task->priority]` — even when
`prev` is a stale global-list link and the task is in fact the queue
head.  The reads of `task->next`/`task->prev` happen statement by
statement, after the earlier writes. -/
def remove_from_ready_queue (s : Sched) (tid : TaskId) : Sched :=
  match lookupTask s.store tid with
  | none => s
  | some t =>
    if PRIORITY_CRITICAL < t.priority then s
    else
      let s1 :=
        match t.prev with
        | some p => setTaskNext s p t.next
        | none => setQueueHead s t.priority t.next
      let s2 :=
        match lookupTask s1.store tid with
        | none => s1
        | some t1 =>
          match t1.next with
          | some n => setTaskPrev s1 n t1.prev
          | none => s1
      setTaskPrev (setTaskNext s2 tid none) tid none

/-- List the ids on the chain that starts at `c` and follows the `next`
fields, up to `fuel` nodes.  An acyclic chain over a store of `n`
records has at most `n` nodes, so fuel `n + 1` never truncates one. -/
def walkList (s : Sched) : Nat → Option TaskId → List TaskId
  | 0, _ => []
  | _, none => []
  | fuel + 1, some tid =>
    tid ::
      (match lookupTask s.store tid with
       | none => []
       | some t => walkList s fuel t.next)

/-- The loop of `task_get_by_id`, following `next` from `c`. -/
def walkFind (s : Sched) (target : TaskId) : Nat → Option TaskId → Option TCB
  | 0, _ => none
  | _, none => none
  | fuel + 1, some cur =>
    match lookupTask s.store cur with
    | none => none
    | some t => if t.id = target then some t else walkFind s target fuel t.next

/-- `task_get_by_id`: walk the global task list from `task_list_head_ptr`
via the `next` pointers.  A task whose `next` link was overwritten is
invisible to this walk even though its record is live in memory. -/
def task_get_by_id (s : Sched) (tid : TaskId) : Option TCB :=
  walkFind s tid (s.store.length + 1) s.task_list_head

/-- The ids linked into ready queue `p`: the chain from `ready_queues[p]`. -/
def queueMembers (s : Sched) (p : Nat) : List TaskId :=
  walkList s (s.store.length + 1) (s.queues p)

/-- The downward loop of `find_next_ready_task`, from priority `p` to 0:
return the first non-null queue head pointer. -/
def findFromPriority (qs : Nat → Option TaskId) : Nat → Option TaskId
  | 0 => qs 0
  | p + 1 =>
    match qs (p + 1) with
    | some tid => some tid
    | none => findFromPriority qs p

/-- `find_next_ready_task`: head of the highest non-empty ready queue,
checking priorities from `PRIORITY_CRITICAL` down to `PRIORITY_IDLE`. -/
def find_next_ready_task (s : Sched) : Option TaskId :=
  findFromPriority s.queues PRIORITY_CRITICAL

/-- `schedule_next_task`: pick the next ready task; panic when there is
none; do nothing when it is the already-running current task; otherwise
demote a RUNNING current task to READY, promote the picked task to RUNNING
and count the context switch.  The selected task is never unlinked from
its queue.  The call into the external `context_switch` primitive
transfers control only and does not change scheduler state. -/
def schedule_next_task (s : Sched) : Sched :=
  match find_next_ready_task s with
  | none => { s with panicked := true }
  | some nid =>
    if nid = s.current ∧
        (lookupTask s.store s.current).map (fun t => t.state) = some TaskState.running then s
    else
      let s1 : Sched :=
        match lookupTask s.store s.current with
        | some t =>
          if t.state = .running then
            { s with store := updateTask s.store s.current (fun u => { u with state := .ready }) }
          else s
        | none => s
      { s1 with
        store := updateTask s1.store nid (fun u =>
          { u with state := .running, last_run := s.ticks,
                   context_switch_count := u.context_switch_count + 1 }),
        current := nid,
        stats := { s1.stats with context_switches := s1.stats.context_switches + 1 } }

/-- `task_yield`: reset the current task's time slice and reschedule. -/
def task_yield (s : Sched) : Sched :=
  match lookupTask s.store s.current with
  | none => s
  | some _ =>
    schedule_next_task
      { s with store := updateTask s.store s.current (fun u =>
          { u with time_slice_remaining := u.time_slice }) }

/-- `task_create(name, entry_point, priority, flags)`.  The entry pointer
only seeds the initial register snapshot, so it is modelled by its null
check; the two heap allocations (TCB, stack) are modelled by their success
flags.  `init_task_cpu_state` and `task_setup_memory` cannot fail for a
live task.  The id counter is advanced before the stack allocation is
attempted, exactly as in the source.  A TCB that is allocated and freed
again on the failure path is never linked anywhere, so the model materialises
the record in the store only on the success path; there `task_list_add`
first links it into the global list and `scheduler_add_task` =
`add_to_ready_queue` then overwrites the same `next`/`prev` fields with
the ready-queue links. -/
def task_create (s : Sched) (name : Option String) (entryNonNull : Bool)
    (priority : Nat) (flags : Nat) (tcbAllocOk stackAllocOk : Bool) :
    TaskId × Sched :=
  if name = none ∨ entryNonNull = false then (0, s)
  else if tcbAllocOk = false then (0, s)
  else
    let id := s.next_task_id
    let s1 := { s with next_task_id := id + 1 }
    if stackAllocOk = false then (0, s1)
    else
      let t : TCB :=
        { id := id, name := name.getD "", state := .ready, priority := priority,
          flags := flags, time_slice := s.quantum, time_slice_remaining := s.quantum,
          sleep_until := 0, cpu_time := 0, last_run := 0, context_switch_count := 0,
          exit_code := 0, creation_time := s.ticks, next := none, prev := none }
      let s2 := { s1 with store := t :: s1.store }
      let s3 := task_list_add s2 id
      let s4 := add_to_ready_queue s3 id
      (id, { s4 with stats := { s4.stats with
               total_tasks := s4.stats.total_tasks + 1,
               ready_tasks := s4.stats.ready_tasks + 1 } })

/-- `task_suspend(task_id)`: look the task up by walking the global list;
READY/RUNNING tasks become SUSPENDED and leave their ready queue;
suspending the current task yields. -/
def task_suspend (s : Sched) (tid : TaskId) : Sched :=
  match task_get_by_id s tid with
  | none => s
  | some t =>
    if t.id = 0 then s
    else
      let s1 :=
        if t.state = .running ∨ t.state = .ready then
          let sa := { s with store := updateTask s.store t.id (fun u => { u with state := .suspended }) }
          let sb := remove_from_ready_queue sa t.id
          { sb with stats := { sb.stats with ready_tasks := sb.stats.ready_tasks - 1 } }
        else s
      if t.id = s.current then task_yield s1 else s1

/-- `task_resume(task_id)`: look the task up by walking the global list;
SUSPENDED tasks become READY and re-enter their ready queue. -/
def task_resume (s : Sched) (tid : TaskId) : Sched :=
  match task_get_by_id s tid with
  | none => s
  | some t =>
    if t.state ≠ .suspended then s
    else
      let sa := { s with store := updateTask s.store t.id (fun u => { u with state := .ready }) }
      let sb := add_to_ready_queue sa t.id
      { sb with stats := { sb.stats with ready_tasks := sb.stats.ready_tasks + 1 } }

/-- `task_sleep(milliseconds)`: record the wake deadline
(`ticks + ms * freq / 1000`), block the current task, remove it from its
ready queue and reschedule.  The idle task cannot sleep.  `current_task`
is a held pointer, so the task is dereferenced, not searched. -/
def task_sleep (s : Sched) (milliseconds : Nat) : Sched :=
  match lookupTask s.store s.current with
  | none => s
  | some t =>
    if t.id = 0 then s
    else
      let sa := { s with store := updateTask s.store s.current (fun u =>
        { u with sleep_until := s.ticks + milliseconds * s.freq / 1000,
                 state := .blocked }) }
      let sb := remove_from_ready_queue sa s.current
      let sc := { sb with stats := { sb.stats with
        ready_tasks := sb.stats.ready_tasks - 1,
        blocked_tasks := sb.stats.blocked_tasks + 1 } }
      schedule_next_task sc

/-- `task_exit(exit_code)`: terminate the current task, remove it from
ready structures and reschedule.  The idle task cannot exit. -/
def task_exit (s : Sched) (exit_code : Int) : Sched :=
  match lookupTask s.store s.current with
  | none => s
  | some t =>
    if t.id = 0 then s
    else
      let sa := { s with store := updateTask s.store s.current (fun u =>
        { u with exit_code := exit_code, state := .terminated }) }
      let sb := remove_from_ready_queue sa s.current
      let sc := { sb with stats := { sb.stats with
        ready_tasks := sb.stats.ready_tasks - 1,
        running_tasks := sb.stats.running_tasks - 1 } }
      schedule_next_task sc

/-- The body of the sleep-wake scan of `scheduler_tick`: a BLOCKED task
with an elapsed positive deadline becomes READY again and is pushed onto
its ready queue (overwriting its `next`/`prev` links). -/
def wakeBody (s : Sched) (tid : TaskId) : Sched :=
  match lookupTask s.store tid with
  | none => s
  | some t =>
    if t.state = .blocked ∧ 0 < t.sleep_until ∧ t.sleep_until ≤ s.ticks then
      let sa := { s with store := updateTask s.store tid (fun u =>
        { u with sleep_until := 0, state := .ready }) }
      let sb := add_to_ready_queue sa tid
      { sb with stats := { sb.stats with
        blocked_tasks := sb.stats.blocked_tasks - 1,
        ready_tasks := sb.stats.ready_tasks + 1 } }
    else s

/-- The sleep-wake loop of `scheduler_tick` (`task = task->next` after
the body): the `next` field is re-read from memory after the body ran,
so when `add_to_ready_queue` rewrote it, the walk continues into the
ready queue instead of the rest of the global list.  The fuel only bounds
walks that the C loop would not finish (cyclic chains). -/
def wakeLoop : Sched → Nat → Option TaskId → Sched
  | s, 0, _ => s
  | s, _, none => s
  | s, fuel + 1, some tid =>
    let s1 := wakeBody s tid
    match lookupTask s1.store tid with
    | none => s1
    | some t => wakeLoop s1 fuel t.next

/-- Phase (a) of `scheduler_tick`: account CPU time to the current task
and run the sleeper-wake walk over the global task list. -/
def scheduler_wake_phase (s : Sched) : Sched :=
  let s1 := { s with
    store := updateTask s.store s.current (fun u => { u with cpu_time := u.cpu_time + 1 }),
    stats := { s.stats with total_cpu_time := s.stats.total_cpu_time + 1 } }
  wakeLoop s1 (s1.store.length + 1) s1.task_list_head

/-- The preemption test of `scheduler_tick`, applied to the current task
after its slice was decremented and to the ready-queue head pointers after
the wake scan: the slice expired, or the CRITICAL queue head is non-null
and the current priority is below CRITICAL, or the HIGH queue head is
non-null and the current priority is below HIGH. -/
def preempt_condition (s : Sched) (t : TCB) : Prop :=
  t.time_slice_remaining = 0 ∨
  (s.queues PRIORITY_CRITICAL ≠ none ∧ t.priority < PRIORITY_CRITICAL) ∨
  (s.queues PRIORITY_HIGH ≠ none ∧ t.priority < PRIORITY_HIGH)

instance (s : Sched) (t : TCB) : Decidable (preempt_condition s t) := by
  unfold preempt_condition; infer_instance

/-- Phase (b) of `scheduler_tick`: decrement the current task's remaining
time slice when it is positive (`if (current_task->time_slice_remaining >
0) current_task->time_slice_remaining--`). -/
def tick_slice_phase (s : Sched) (cur : TaskId) : Sched :=
  { s with store := updateTask s.store cur (fun u =>
    if 0 < u.time_slice_remaining then
      { u with time_slice_remaining := u.time_slice_remaining - 1 }
    else u) }

/-- `scheduler_tick()`: wake sleepers, decrement the current task's
remaining slice, and — when `preempt_condition` holds — reset the slice
and reschedule.  The boolean records whether `schedule_next_task` was
invoked (the "reschedule triggered" observable). -/
def scheduler_tick (s : Sched) : Sched × Bool :=
  match lookupTask s.store s.current with
  | none => (s, false)
  | some _ =>
    let s3 := tick_slice_phase (scheduler_wake_phase s) s.current
    match lookupTask s3.store s.current with
    | none => (s3, false)
    | some t =>
      if preempt_condition s3 t then
        let s4 := { s3 with store := updateTask s3.store s.current (fun u =>
          { u with time_slice_remaining := u.time_slice }) }
        (schedule_next_task s4, true)
      else (s3, false)

/-- The idle task's TCB as initialised by `task_init`
(`flags = TASK_FLAG_KERNEL | TASK_FLAG_SYSTEM`, stack statically
allocated, pointers zeroed by the memset). -/
def idleTCB (quantum : Nat) : TCB :=
  { id := 0, name := "idle", state := .ready, priority := PRIORITY_IDLE,
    flags := 1 ||| 4, time_slice := quantum, time_slice_remaining := quantum,
    sleep_until := 0, cpu_time := 0, last_run := 0, context_switch_count := 0,
    exit_code := 0, creation_time := 0, next := none, prev := none }

/-- The scheduler state after `task_init()`: only the idle task, linked
into the global list and then into the IDLE ready queue (in that order,
as in the source), and set as the current task.  `freq` is the external
timer's frequency. -/
def initialSched (freq : Nat) : Sched :=
  add_to_ready_queue
    (task_list_add
      { store := [idleTCB 50], task_list_head := none, queues := fun _ => none,
        current := 0, next_task_id := 1, stats := ⟨0, 0, 0, 0, 0, 0, 0⟩,
        ticks := 0, freq := freq, quantum := 50, panicked := false } 0) 0

/-- One observable scheduler operation.  `create`'s priority argument is a
`task_priority_t` value, hence at most `PRIORITY_CRITICAL`; a timer tick
advances the external tick counter and runs `scheduler_tick`. -/
inductive Step : Sched → Sched → Prop where
  | create (s : Sched) (name : Option String) (entryNonNull : Bool)
      (priority flags : Nat) (tcbOk stackOk : Bool)
      (hpri : priority ≤ PRIORITY_CRITICAL) :
      Step s (task_create s name entryNonNull priority flags tcbOk stackOk).2
  | suspend (s : Sched) (tid : TaskId) : Step s (task_suspend s tid)
  | resume (s : Sched) (tid : TaskId) : Step s (task_resume s tid)
  | sleep (s : Sched) (ms : Nat) : Step s (task_sleep s ms)
  | exit (s : Sched) (code : Int) : Step s (task_exit s code)
  | yield (s : Sched) : Step s (task_yield s)
  | tick (s : Sched) : Step s (scheduler_tick { s with ticks := s.ticks + 1 }).1
  | schedule (s : Sched) : Step s (schedule_next_task s)

/-- States reachable from `task_init` by scheduler operations. -/
inductive Reachable : Sched → Prop where
  | init (freq : Nat) : Reachable (initialSched freq)
  | step {s s' : Sched} : Reachable s → Step s s' → Reachable s'

/-! ## Spinlock (`src/kernel/task.c`) -/

/-- `spinlock_t`. -/
structure spinlock_t where
  locked : Nat
  owner : TaskId
  count : Nat
  recursion_count : Nat
  deriving Repr, DecidableEq

/-- `spinlock_init`. -/
def spinlock_init : spinlock_t :=
  { locked := 0, owner := 0, count := 0, recursion_count := 0 }

/-- `spinlock_release`, with `caller = task_get_current_id()`: a silent
no-op (the function returns `void` and sets no error) unless the caller is
the recorded owner; otherwise clear the owner and the locked flag. -/
def spinlock_release (lock : spinlock_t) (caller : TaskId) : spinlock_t :=
  if lock.owner ≠ caller then lock
  else { lock with owner := 0, locked := 0 }

/-- `spinlock_try_acquire`, with `caller = task_get_current_id()`. -/
def spinlock_try_acquire (lock : spinlock_t) (caller : TaskId) :
    Bool × spinlock_t :=
  if lock.locked = 0 then
    (true, { lock with locked := 1, owner := caller, count := lock.count + 1 })
  else (false, lock)

/-! ## Concrete scenario states used by the theorems -/

/-- 1024-byte arena for the heap round trip. -/
def heapRT0 : List HeapBlock := mm_init 1024
/-- … after `kmalloc(100)`. -/
def heapRT1 : List HeapBlock := (kmalloc heapRT0 100).2
/-- … after a second `kmalloc(100)`. -/
def heapRT2 : List HeapBlock := (kmalloc heapRT1 100).2
/-- … after freeing the first allocation (payload offset 32). -/
def heapRT3 : List HeapBlock := kfree heapRT2 32

/-- 408-byte arena: exactly three 104-byte blocks plus their headers. -/
def heapCo0 : List HeapBlock := mm_init 408
/-- … after three `kmalloc(100)` calls (payload offsets 32, 168, 304). -/
def heapCo3 : List HeapBlock :=
  (kmalloc (kmalloc (kmalloc heapCo0 100).2 100).2 100).2

/-- A 1024-byte arena holding one allocated 8-byte block. -/
def heapRe1 : List HeapBlock := (kmalloc (mm_init 1024) 8).2

/-- The scheduler state after `task_init` and one `schedule_next_task`:
the idle task is RUNNING. -/
def sched1 : Sched := schedule_next_task (initialSched 100)

/-- … after creating a NORMAL-priority task while idle runs. -/
def sched2 : Sched :=
  (task_create sched1 (some "worker") true PRIORITY_NORMAL 1 true true).2

/-- Trace A: three tasks created from the initial state — W at HIGH,
X at HIGH, Z at CRITICAL. -/
def schedA3 : Sched :=
  (task_create
    (task_create
      (task_create (initialSched 100) (some "W") true PRIORITY_HIGH 1 true true).2
      (some "X") true PRIORITY_HIGH 1 true true).2
    (some "Z") true PRIORITY_CRITICAL 1 true true).2

/-- Trace A after `schedule_next_task` (Z, the CRITICAL task, runs). -/
def schedA4 : Sched := schedule_next_task schedA3

/-- Trace A after three `task_sleep(10)` calls by the successive current
tasks (Z sleeps; X is scheduled and sleeps; the corrupted unlink leaves X
selectable, so X is scheduled and sleeps once more). -/
def schedA7 : Sched := task_sleep (task_sleep (task_sleep schedA4 10) 10) 10

/-- Trace B: B created at HIGH, D at CRITICAL, then `schedule_next_task`
(D runs). -/
def schedB3 : Sched :=
  schedule_next_task
    (task_create
      (task_create (initialSched 100) (some "B") true PRIORITY_HIGH 1 true true).2
      (some "D") true PRIORITY_CRITICAL 1 true true).2

/-- Trace B after D sleeps (B is scheduled), B creates F at CRITICAL, and
B sleeps. -/
def schedB6 : Sched :=
  task_sleep
    (task_create (task_sleep schedB3 10) (some "F") true PRIORITY_CRITICAL 1
      true true).2 10

end MyOS

namespace MyOS

/-! ## Theorems -/

/-- **C5** — Heap allocation is first-fit from the list head after rounding
the request up to an 8-byte boundary: in a 1024-byte arena, allocating
100 bytes returns payload offset 32, a second 100-byte allocation returns
offset 168, and after freeing the first block a 50-byte allocation returns
offset 32 again — the address of the freed first block is reused. -/
theorem heap_first_fit_round_trip :
    alignUp8 100 = 104 ∧ alignUp8 50 = 56 ∧
    (kmalloc heapRT0 100).1 = some 32 ∧
    (kmalloc heapRT1 100).1 = some 168 ∧
    (kmalloc heapRT3 50).1 = some 32 := by
  decide

set_option maxRecDepth 40000 in
/-- **C6** — With the 128 MiB total memory hard-coded in `init_paging`,
frame size 4096 and the first 4 MiB marked used, the bitmap size is
4096 bytes and the first `alloc_frame` returns byte address `0x400000`,
i.e. frame index 1024. -/
theorem frame_allocator_arithmetic :
    init_paging.total_memory = 128 * 1024 * 1024 ∧
    bitmap_size init_paging.total_memory = 4096 ∧
    (alloc_frame init_paging).1 = 0x400000 ∧
    (alloc_frame init_paging).1 / PAGE_SIZE = 1024 := by
  decide

/-- **C9** — `spinlock_release` invoked by a caller other than the
recorded owner is a complete no-op: the locked flag, owner and both
counters are left unchanged, and no error is surfaced (the function has no
error channel at all). -/
theorem spinlock_release_nonowner_noop (lock : spinlock_t) (caller : TaskId)
    (h : lock.owner ≠ caller) : spinlock_release lock caller = lock := by
  simp [spinlock_release, h]

/-- Witness for `spinlock_release_nonowner_noop` at a concrete lock. -/
theorem spinlock_release_nonowner_noop_witness :
    spinlock_release ⟨1, 5, 2, 0⟩ 3 = ⟨1, 5, 2, 0⟩ :=
  spinlock_release_nonowner_noop ⟨1, 5, 2, 0⟩ 3 (by decide)

/-- **C10** — Boundary behaviour of `krealloc`: with a null pointer it is
exactly `kmalloc`, and for a live pointer with requested size 0 it frees
the pointer and returns the null sentinel. -/
theorem krealloc_boundary :
    (∀ (h : List HeapBlock) (n : Nat), krealloc h none n = kmalloc h n) ∧
    (∀ (h : List HeapBlock) (p : Nat) (b : HeapBlock),
      heapLookup h p = some b → b.free = false →
      krealloc h (some p) 0 = (none, kfree h p)) := by
  constructor
  · intro h n; rfl
  · intro h p b _ _; rfl

/-- Witness for `krealloc_boundary` on a concrete heap and live pointer. -/
theorem krealloc_boundary_witness :
    krealloc heapRe1 none 5 = kmalloc heapRe1 5 ∧
    krealloc heapRe1 (some 32) 0 = (none, kfree heapRe1 32) :=
  ⟨krealloc_boundary.1 heapRe1 5,
   krealloc_boundary.2 heapRe1 32 ⟨8, false, List.replicate 8 0⟩
     (by decide) rfl⟩


theorem noAdjacentFree_nil : noAdjacentFree ([] : List HeapBlock) :=
  List.chain'_nil

theorem noAdjacentFree_singleton (b : HeapBlock) : noAdjacentFree [b] :=
  List.chain'_singleton _

theorem noAdjacentFree_cons (a : HeapBlock) (l : List HeapBlock) :
    noAdjacentFree (a :: l) ↔
      (∀ b ∈ l.head?, ¬(a.free = true ∧ b.free = true)) ∧ noAdjacentFree l :=
  List.chain'_cons'

/-- `freeHead` (mark free + coalesce with the next block) produces a free
head block, keeps the tail adjacent-free, and leaves no free block directly
after the head. -/
theorem freeHead_spec (b : HeapBlock) (l : List HeapBlock)
    (h : noAdjacentFree (b :: l)) :
    ∃ c' l'', freeHead (b :: l) = c' :: l'' ∧ c'.free = true ∧
      noAdjacentFree l'' ∧ ∀ d ∈ l''.head?, d.free = false := by
  cases l with
  | nil =>
    exact ⟨⟨b.size, true, b.data⟩, [], rfl, rfl, noAdjacentFree_nil, by simp⟩
  | cons c rest =>
    have htail : noAdjacentFree (c :: rest) := ((noAdjacentFree_cons b _).mp h).2
    by_cases hc : c.free = true
    · refine ⟨⟨b.size + c.size + HEADER_SIZE, true,
        b.data ++ List.replicate HEADER_SIZE 0 ++ c.data⟩, rest, ?_, rfl, ?_, ?_⟩
      · simp [freeHead, hc]
      · exact ((noAdjacentFree_cons c _).mp htail).2
      · intro d hd
        have := ((noAdjacentFree_cons c _).mp htail).1 d hd
        by_contra hdf
        exact this ⟨hc, by simpa using hdf⟩
    · refine ⟨⟨b.size, true, b.data⟩, c :: rest, ?_, rfl, htail, ?_⟩
      · simp [freeHead, hc]
      · intro d hd
        simp only [List.head?_cons, Option.mem_def, Option.some.injEq] at hd
        subst hd
        simpa using hc

/-- When the freed pointer is not the head block, `kfreeGo` preserves the
free flag of the head block. -/
theorem kfreeGo_head_free (ptr : Nat) (l : List HeapBlock) (addr : Nat)
    (h : ptr ≠ addr + HEADER_SIZE) :
    (kfreeGo ptr addr l).head?.map (fun b => b.free)
      = l.head?.map (fun b => b.free) := by
  cases l with
  | nil => rfl
  | cons b rest =>
    unfold kfreeGo
    rw [if_neg h]
    cases rest with
    | nil => rfl
    | cons c rest' =>
      dsimp only
      by_cases h2 : ptr = addr + HEADER_SIZE + b.size + HEADER_SIZE
      · rw [if_pos h2]
        cases hfh : freeHead (c :: rest') with
        | nil => simp
        | cons c' rest'' =>
          by_cases hb : b.free = true
          · simp [hb]
          · simp [hb]
      · rw [if_neg h2]
        simp

/-- `kfree` preserves the no-adjacent-free invariant (core of **C4**). -/
theorem kfreeGo_noAdjacentFree (ptr : Nat) (l : List HeapBlock) :
    ∀ (addr : Nat), noAdjacentFree l → noAdjacentFree (kfreeGo ptr addr l) := by
  induction l with
  | nil => intro addr h; exact h
  | cons b rest ih =>
    intro addr h
    unfold kfreeGo
    by_cases h1 : ptr = addr + HEADER_SIZE
    · rw [if_pos h1]
      obtain ⟨c', l'', heq, hcfree, hna, hhd⟩ := freeHead_spec b rest h
      rw [heq]
      refine (noAdjacentFree_cons _ _).mpr ⟨?_, hna⟩
      intro d hd hcontra
      have := hhd d hd
      rw [this] at hcontra
      exact Bool.false_ne_true hcontra.2
    · rw [if_neg h1]
      cases rest with
      | nil => exact noAdjacentFree_singleton b
      | cons c rest' =>
        dsimp only
        have htail : noAdjacentFree (c :: rest') := ((noAdjacentFree_cons b _).mp h).2
        by_cases h2 : ptr = addr + HEADER_SIZE + b.size + HEADER_SIZE
        · rw [if_pos h2]
          obtain ⟨c', l'', heq, hcfree, hna, hhd⟩ := freeHead_spec c rest' htail
          rw [heq]
          dsimp only
          by_cases hb : b.free = true
          · rw [if_pos hb]
            refine (noAdjacentFree_cons _ _).mpr ⟨?_, hna⟩
            intro d hd hcontra
            have := hhd d hd
            rw [this] at hcontra
            exact Bool.false_ne_true hcontra.2
          · rw [if_neg hb]
            refine (noAdjacentFree_cons _ _).mpr
              ⟨?_, (noAdjacentFree_cons _ _).mpr ⟨?_, hna⟩⟩
            · intro d _ hcontra
              exact hb hcontra.1
            · intro d hd hcontra
              have := hhd d hd
              rw [this] at hcontra
              exact Bool.false_ne_true hcontra.2
        · rw [if_neg h2]
          refine (noAdjacentFree_cons _ _).mpr
            ⟨?_, ih (addr + HEADER_SIZE + b.size) htail⟩
          intro d hd hcontra
          have hh := kfreeGo_head_free ptr (c :: rest') (addr + HEADER_SIZE + b.size) h2
          simp only [Option.mem_def] at hd
          rw [hd] at hh
          simp only [List.head?_cons, Option.map_some'] at hh
          have hdc : d.free = c.free := by
            exact Option.some.inj hh
          have hcf : c.free = true := by rw [← hdc]; exact hcontra.2
          exact ((noAdjacentFree_cons b _).mp h).1 c (by simp) ⟨hcontra.1, hcf⟩

/-- **C4** — `kfree` never leaves two adjacent free blocks: the
no-adjacent-free invariant is preserved by every free operation.  In the
concrete scenario, a 408-byte arena holds exactly three adjacent allocated
104-byte blocks; freeing the last two in either order yields a single free
block of size 104 + 104 + HEADER_SIZE. -/
theorem kfree_coalescing :
    (∀ (h : List HeapBlock) (p : Nat),
      noAdjacentFree h → noAdjacentFree (kfree h p)) ∧
    heapCo3.map (fun b => (b.size, b.free))
      = [(104, false), (104, false), (104, false)] ∧
    (kfree (kfree heapCo3 304) 168).map (fun b => (b.size, b.free))
      = [(104, false), (104 + 104 + HEADER_SIZE, true)] ∧
    (kfree (kfree heapCo3 168) 304).map (fun b => (b.size, b.free))
      = [(104, false), (104 + 104 + HEADER_SIZE, true)] := by
  refine ⟨fun h p hna => kfreeGo_noAdjacentFree p h 0 hna, ?_, ?_, ?_⟩ <;> decide

/-- Witness for `kfree_coalescing` on a concrete heap. -/
theorem kfree_coalescing_witness :
    noAdjacentFree heapRT2 ∧ noAdjacentFree (kfree heapRT2 32) :=
  ⟨by decide, kfree_coalescing.1 heapRT2 32 (by decide)⟩

/-- Block payloads live strictly after their header. -/
theorem blockAt_lb (ptr : Nat) (l : List HeapBlock) :
    ∀ (addr : Nat) (b : HeapBlock),
      blockAt ptr addr l = some b → addr + HEADER_SIZE ≤ ptr := by
  induction l with
  | nil => intro addr b h; exact absurd h (by simp [blockAt])
  | cons hd rest ih =>
    intro addr b h
    unfold blockAt at h
    by_cases h1 : ptr = addr + HEADER_SIZE
    · omega
    · rw [if_neg h1] at h
      have := ih (addr + HEADER_SIZE + hd.size) b h
      omega

/-- A successful allocation is served at or after the scan's base address. -/
theorem kmallocGo_lb (s : Nat) (l : List HeapBlock) :
    ∀ (addr q : Nat) (l' : List HeapBlock),
      kmallocGo s addr l = some (q, l') → addr + HEADER_SIZE ≤ q := by
  induction l with
  | nil => intro addr q l' h; exact absurd h (by simp [kmallocGo])
  | cons hd rest ih =>
    intro addr q l' h
    unfold kmallocGo at h
    by_cases hserve : hd.free = true ∧ s ≤ hd.size
    · rw [if_pos hserve] at h
      by_cases hsplit : s + HEADER_SIZE + 8 < hd.size
      · rw [if_pos hsplit] at h
        obtain ⟨rfl, -⟩ := Prod.mk.injEq .. ▸ Option.some.inj h
        omega
      · rw [if_neg hsplit] at h
        obtain ⟨rfl, -⟩ := Prod.mk.injEq .. ▸ Option.some.inj h
        omega
    · rw [if_neg hserve] at h
      cases hrec : kmallocGo s (addr + HEADER_SIZE + hd.size) rest with
      | none => rw [hrec] at h; exact absurd h (by simp)
      | some pr =>
        rw [hrec] at h
        obtain ⟨q', rest'⟩ := pr
        have := ih (addr + HEADER_SIZE + hd.size) q' rest' hrec
        dsimp only at h
        obtain ⟨hq, -⟩ := Prod.mk.injEq .. ▸ Option.some.inj h
        omega

/-- `kmallocGo` never touches an allocated block: an in-use block stays at
its address with identical contents. -/
theorem kmallocGo_preserves (s : Nat) (l : List HeapBlock) :
    ∀ (addr q ptr : Nat) (l' : List HeapBlock) (b : HeapBlock),
      kmallocGo s addr l = some (q, l') → blockAt ptr addr l = some b →
      b.free = false → blockAt ptr addr l' = some b := by
  induction l with
  | nil => intro addr q ptr l' b h _ _; exact absurd h (by simp [kmallocGo])
  | cons hd rest ih =>
    intro addr q ptr l' b hmal hlook hfree
    unfold kmallocGo at hmal
    unfold blockAt at hlook
    by_cases h1 : ptr = addr + HEADER_SIZE
    · rw [if_pos h1] at hlook
      have hbhd : hd = b := Option.some.inj hlook
      by_cases hserve : hd.free = true ∧ s ≤ hd.size
      · exfalso
        rw [hbhd, hfree] at hserve
        simp at hserve
      · rw [if_neg hserve] at hmal
        cases hrec : kmallocGo s (addr + HEADER_SIZE + hd.size) rest with
        | none => rw [hrec] at hmal; exact absurd hmal (by simp)
        | some pr =>
          rw [hrec] at hmal
          obtain ⟨q', rest'⟩ := pr
          dsimp only at hmal
          obtain ⟨hq, hl⟩ := Prod.mk.injEq .. ▸ Option.some.inj hmal
          subst hl
          unfold blockAt
          rw [if_pos h1, hbhd]
    · rw [if_neg h1] at hlook
      by_cases hserve : hd.free = true ∧ s ≤ hd.size
      · rw [if_pos hserve] at hmal
        by_cases hsplit : s + HEADER_SIZE + 8 < hd.size
        · rw [if_pos hsplit] at hmal
          obtain ⟨hq, hl⟩ := Prod.mk.injEq .. ▸ Option.some.inj hmal
          subst hl
          have hlb := blockAt_lb ptr rest (addr + HEADER_SIZE + hd.size) b hlook
          have hH : HEADER_SIZE = 32 := rfl
          unfold blockAt
          rw [if_neg h1]
          dsimp only
          have h2 : ¬(ptr = addr + HEADER_SIZE + s + HEADER_SIZE) := by omega
          unfold blockAt
          rw [if_neg h2]
          dsimp only
          have harith : addr + HEADER_SIZE + s + HEADER_SIZE + (hd.size - s - HEADER_SIZE)
              = addr + HEADER_SIZE + hd.size := by omega
          rw [harith]
          exact hlook
        · rw [if_neg hsplit] at hmal
          obtain ⟨hq, hl⟩ := Prod.mk.injEq .. ▸ Option.some.inj hmal
          subst hl
          unfold blockAt
          rw [if_neg h1]
          dsimp only
          exact hlook
      · rw [if_neg hserve] at hmal
        cases hrec : kmallocGo s (addr + HEADER_SIZE + hd.size) rest with
        | none => rw [hrec] at hmal; exact absurd hmal (by simp)
        | some pr =>
          rw [hrec] at hmal
          obtain ⟨q', rest'⟩ := pr
          dsimp only at hmal
          obtain ⟨hq, hl⟩ := Prod.mk.injEq .. ▸ Option.some.inj hmal
          subst hl
          unfold blockAt
          rw [if_neg h1]
          exact ih (addr + HEADER_SIZE + hd.size) q' ptr rest' b hrec hlook hfree

/-- The block served by `kmallocGo` is in use and large enough for the
request. -/
theorem kmallocGo_block (s : Nat) (l : List HeapBlock) :
    ∀ (addr q : Nat) (l' : List HeapBlock),
      kmallocGo s addr l = some (q, l') →
      ∃ bq, blockAt q addr l' = some bq ∧ bq.free = false ∧ s ≤ bq.size := by
  induction l with
  | nil => intro addr q l' h; exact absurd h (by simp [kmallocGo])
  | cons hd rest ih =>
    intro addr q l' h
    unfold kmallocGo at h
    by_cases hserve : hd.free = true ∧ s ≤ hd.size
    · rw [if_pos hserve] at h
      by_cases hsplit : s + HEADER_SIZE + 8 < hd.size
      · rw [if_pos hsplit] at h
        obtain ⟨hq, hl⟩ := Prod.mk.injEq .. ▸ Option.some.inj h
        subst hl
        refine ⟨⟨s, false, hd.data.take s⟩, ?_, rfl, le_refl s⟩
        unfold blockAt
        rw [if_pos hq.symm]
      · rw [if_neg hsplit] at h
        obtain ⟨hq, hl⟩ := Prod.mk.injEq .. ▸ Option.some.inj h
        subst hl
        refine ⟨⟨hd.size, false, hd.data⟩, ?_, rfl, hserve.2⟩
        unfold blockAt
        rw [if_pos hq.symm]
    · rw [if_neg hserve] at h
      cases hrec : kmallocGo s (addr + HEADER_SIZE + hd.size) rest with
      | none => rw [hrec] at h; exact absurd h (by simp)
      | some pr =>
        rw [hrec] at h
        obtain ⟨q', rest'⟩ := pr
        dsimp only at h
        obtain ⟨hq, hl⟩ := Prod.mk.injEq .. ▸ Option.some.inj h
        subst hl
        obtain ⟨bq, hbq, hfree2, hsize⟩ := ih (addr + HEADER_SIZE + hd.size) q' rest' hrec
        have hlb := kmallocGo_lb s rest (addr + HEADER_SIZE + hd.size) q' rest' hrec
        have hH : HEADER_SIZE = 32 := rfl
        have hne : ¬(q = addr + HEADER_SIZE) := by omega
        refine ⟨bq, ?_, hfree2, hsize⟩
        unfold blockAt
        rw [if_neg hne, ← hq]
        exact hbq

/-- `writeBytesGo` rewrites exactly the payload prefix of the addressed
block. -/
theorem writeBytesGo_cons (q : Nat) (bytes : List Nat) (addr : Nat)
    (hd : HeapBlock) (rest : List HeapBlock) :
    writeBytesGo q bytes addr (hd :: rest)
      = if q = addr + HEADER_SIZE then
          ⟨hd.size, hd.free, bytes ++ hd.data.drop bytes.length⟩ :: rest
        else hd :: writeBytesGo q bytes (addr + HEADER_SIZE + hd.size) rest := by
  simp only [writeBytesGo]

theorem blockAt_cons (q addr : Nat) (hd : HeapBlock) (rest : List HeapBlock) :
    blockAt q addr (hd :: rest)
      = if q = addr + HEADER_SIZE then some hd
        else blockAt q (addr + HEADER_SIZE + hd.size) rest := by
  simp only [blockAt]

theorem blockAt_writeBytesGo (q : Nat) (bytes : List Nat) (l : List HeapBlock) :
    ∀ (addr : Nat),
      blockAt q addr (writeBytesGo q bytes addr l)
        = (blockAt q addr l).map
            (fun b => ⟨b.size, b.free, bytes ++ b.data.drop bytes.length⟩) := by
  induction l with
  | nil => intro addr; rfl
  | cons hd rest ih =>
    intro addr
    rw [writeBytesGo_cons, blockAt_cons]
    by_cases h1 : q = addr + HEADER_SIZE
    · rw [if_pos h1, if_pos h1, blockAt_cons, if_pos h1]
      rfl
    · rw [if_neg h1, if_neg h1, blockAt_cons, if_neg h1]
      exact ih (addr + HEADER_SIZE + hd.size)

/-- A failed `kmalloc` leaves the heap unchanged. -/
theorem kmalloc_fail (h : List HeapBlock) (n : Nat)
    (hf : (kmalloc h n).1 = none) : kmalloc h n = (none, h) := by
  unfold kmalloc at *
  by_cases h0 : n = 0
  · rw [if_pos h0]
  · rw [if_neg h0] at *
    cases hrec : kmallocGo (alignUp8 n) 0 h with
    | none => rfl
    | some pr => rw [hrec] at hf; obtain ⟨q, h2⟩ := pr; simp at hf

/-- A successful `kmalloc` comes from a successful `kmallocGo` on the
aligned size. -/
theorem kmalloc_some (h : List HeapBlock) (n q : Nat) (h' : List HeapBlock)
    (hs : kmalloc h n = (some q, h')) :
    n ≠ 0 ∧ kmallocGo (alignUp8 n) 0 h = some (q, h') := by
  unfold kmalloc at hs
  by_cases h0 : n = 0
  · rw [if_pos h0] at hs; simp at hs
  · rw [if_neg h0] at hs
    refine ⟨h0, ?_⟩
    cases hrec : kmallocGo (alignUp8 n) 0 h with
    | none => rw [hrec] at hs; simp at hs
    | some pr =>
      rw [hrec] at hs
      obtain ⟨q', l'⟩ := pr
      dsimp only at hs
      obtain ⟨hq, hl⟩ := Prod.mk.injEq .. ▸ hs
      rw [Option.some.inj hq, hl]

/-- **C7**, amended — the `krealloc` contract for a live pointer and a
**nonzero** requested size: the pointer and heap are returned unchanged
when the block already satisfies the request; a failed new allocation
returns the null sentinel with the heap (hence the old block and its
contents) untouched; and otherwise the result is a fresh pointer whose
first `min(old_size, new_size) = old_size` payload bytes are the old
block's bytes, after which the old block is freed.  (For `new_size = 0`
the claim fails: `krealloc` frees the block instead of returning it,
see the counterexample.) -/
theorem krealloc_contract (h : List HeapBlock) (p n : Nat) (b : HeapBlock)
    (hn : 0 < n) (hb : heapLookup h p = some b) (hfree : b.free = false)
    (hlen : b.data.length = b.size) :
    (n ≤ b.size → krealloc h (some p) n = (some p, h)) ∧
    (b.size < n → (kmalloc h n).1 = none → krealloc h (some p) n = (none, h)) ∧
    (∀ q h', b.size < n → kmalloc h n = (some q, h') →
      heapLookup h' p = some b ∧
      krealloc h (some p) n
        = (some q, kfree (writeBytes h' q (readBytes h' p (min b.size n))) p) ∧
      readBytes h' p (min b.size n) = b.data ∧
      readBytes (writeBytes h' q (readBytes h' p (min b.size n))) q b.size
        = b.data) := by
  have hn' : ¬(n = 0) := Nat.pos_iff_ne_zero.mp hn
  refine ⟨?_, ?_, ?_⟩
  · intro hle
    unfold krealloc
    dsimp only
    rw [if_neg hn', hb]
    dsimp only
    rw [if_pos hle]
  · intro hlt hnone
    have hkm := kmalloc_fail h n hnone
    unfold krealloc
    dsimp only
    rw [if_neg hn', hb]
    dsimp only
    rw [if_neg (not_le.mpr hlt), hkm]
  · intro q h' hlt hkm
    obtain ⟨-, hgo⟩ := kmalloc_some h n q h' hkm
    have hpres : heapLookup h' p = some b :=
      kmallocGo_preserves (alignUp8 n) h 0 q p h' b hgo hb hfree
    have hmin : min b.size n = b.size := min_eq_left hlt.le
    have hread : readBytes h' p (min b.size n) = b.data := by
      rw [hmin]
      unfold readBytes
      rw [hpres]
      dsimp only
      rw [← hlen, List.take_length]
    refine ⟨hpres, ?_, hread, ?_⟩
    · unfold krealloc
      dsimp only
      rw [if_neg hn', hb]
      dsimp only
      rw [if_neg (not_le.mpr hlt), hkm]
    · obtain ⟨bq, hbq, -, -⟩ := kmallocGo_block (alignUp8 n) h 0 q h' hgo
      have hpres' : blockAt p 0 h' = some b := hpres
      unfold readBytes writeBytes heapLookup
      rw [blockAt_writeBytesGo, hbq]
      dsimp only [Option.map_some']
      rw [hpres']
      dsimp only
      rw [hmin, ← hlen]
      simp [List.take_length, List.take_left]

/-- Witness for `krealloc_contract`: an in-place `krealloc` on a concrete
heap returns the pointer and heap unchanged. -/
theorem krealloc_contract_witness :
    krealloc heapRe1 (some 32) 8 = (some 32, heapRe1) :=
  (krealloc_contract heapRe1 32 8 ⟨8, false, List.replicate 8 0⟩ (by decide)
    (by decide) rfl (by decide)).1 (by decide)

/-- **C7**, counterexample — at `new_size = 0` the existing block's
capacity trivially satisfies the request, yet `krealloc` does not return
the pointer with the heap unchanged: it frees the block and returns the
null sentinel. -/
theorem krealloc_zero_not_in_place :
    heapLookup heapRe1 32 = some ⟨8, false, List.replicate 8 0⟩ ∧
    (0 : Nat) ≤ 8 ∧
    krealloc heapRe1 (some 32) 0 ≠ (some 32, heapRe1) := by
  decide

/-! ### Scheduler helper lemmas -/

theorem lookupTask_mem {ts : List TCB} {tid : TaskId} {t : TCB}
    (h : lookupTask ts tid = some t) : t ∈ ts ∧ t.id = tid := by
  unfold lookupTask at h
  refine ⟨List.mem_of_find?_eq_some h, ?_⟩
  have hp := List.find?_some h
  simpa using hp

theorem lookupTask_updateTask (ts : List TCB) (tid : TaskId) (f : TCB → TCB)
    (hid : ∀ u, (f u).id = u.id) (tid' : TaskId) :
    lookupTask (updateTask ts tid f) tid'
      = (lookupTask ts tid').map (fun t => if t.id = tid then f t else t) := by
  unfold lookupTask updateTask
  rw [List.find?_map]
  have hpred : ((fun t : TCB => t.id == tid') ∘ (fun t => if t.id = tid then f t else t))
      = (fun t : TCB => t.id == tid') := by
    funext t
    by_cases h : t.id = tid
    · simp only [Function.comp_apply, if_pos h, hid]
    · simp only [Function.comp_apply, if_neg h]
  rw [hpred]

theorem lookupTask_updateTask_self (ts : List TCB) (tid : TaskId) (f : TCB → TCB)
    (hid : ∀ u, (f u).id = u.id) :
    lookupTask (updateTask ts tid f) tid = (lookupTask ts tid).map f := by
  rw [lookupTask_updateTask ts tid f hid tid]
  cases hf : lookupTask ts tid with
  | none => rfl
  | some t =>
    have ht := (lookupTask_mem hf).2
    simp [ht]

theorem lookup_map_proj_updateTask {α : Type} (proj : TCB → α) (ts : List TCB)
    (tid : TaskId) (f : TCB → TCB) (hid : ∀ u, (f u).id = u.id)
    (hproj : ∀ u, proj (f u) = proj u) (tid' : TaskId) :
    (lookupTask (updateTask ts tid f) tid').map proj
      = (lookupTask ts tid').map proj := by
  rw [lookupTask_updateTask ts tid f hid tid']
  cases hf : lookupTask ts tid' with
  | none => rfl
  | some t =>
    dsimp only [Option.map_some']
    by_cases h : t.id = tid
    · rw [if_pos h, hproj]
    · rw [if_neg h]

theorem setTaskNext_queues (s : Sched) (tid : TaskId) (v : Option TaskId) :
    (setTaskNext s tid v).queues = s.queues := rfl

theorem setQueueHead_store (s : Sched) (p : Nat) (v : Option TaskId) :
    (setQueueHead s p v).store = s.store := rfl

/-- Writing a `next` pointer never changes a task's priority or remaining
slice. -/
theorem setTaskNext_proj (s : Sched) (tid : TaskId) (v : Option TaskId)
    (tid' : TaskId) :
    (lookupTask (setTaskNext s tid v).store tid').map
        (fun u => (u.priority, u.time_slice_remaining))
      = (lookupTask s.store tid').map
          (fun u => (u.priority, u.time_slice_remaining)) := by
  unfold setTaskNext
  dsimp only
  refine lookup_map_proj_updateTask _ s.store tid _ ?_ ?_ tid' <;>
    exact fun _ => rfl

/-- Writing a `prev` pointer never changes a task's priority or remaining
slice. -/
theorem setTaskPrev_proj (s : Sched) (tid : TaskId) (v : Option TaskId)
    (tid' : TaskId) :
    (lookupTask (setTaskPrev s tid v).store tid').map
        (fun u => (u.priority, u.time_slice_remaining))
      = (lookupTask s.store tid').map
          (fun u => (u.priority, u.time_slice_remaining)) := by
  unfold setTaskPrev
  dsimp only
  refine lookup_map_proj_updateTask _ s.store tid _ ?_ ?_ tid' <;>
    exact fun _ => rfl

/-- Queue insertion only rewrites pointers, never a priority or a slice. -/
theorem add_to_ready_queue_proj (s : Sched) (tid tid' : TaskId) :
    (lookupTask (add_to_ready_queue s tid).store tid').map
        (fun u => (u.priority, u.time_slice_remaining))
      = (lookupTask s.store tid').map
          (fun u => (u.priority, u.time_slice_remaining)) := by
  unfold add_to_ready_queue
  cases hlk : lookupTask s.store tid with
  | none => rfl
  | some t =>
    dsimp only
    by_cases hp : PRIORITY_CRITICAL < t.priority
    · rw [if_pos hp]
    · rw [if_neg hp]
      rw [setTaskNext_queues]
      cases hq : s.queues t.priority with
      | none =>
        dsimp only
        refine (setTaskPrev_proj _ tid none tid').trans ?_
        rw [setQueueHead_store]
        exact setTaskNext_proj s tid none tid'
      | some hd =>
        dsimp only
        refine (setTaskPrev_proj _ tid none tid').trans ?_
        rw [setQueueHead_store]
        refine (setTaskPrev_proj _ hd (some tid) tid').trans ?_
        exact setTaskNext_proj s tid (some hd) tid'

/-- The body of the wake scan never changes a task's priority or remaining
slice. -/
theorem wakeBody_proj (s : Sched) (tid tid' : TaskId) :
    (lookupTask (wakeBody s tid).store tid').map
        (fun u => (u.priority, u.time_slice_remaining))
      = (lookupTask s.store tid').map
          (fun u => (u.priority, u.time_slice_remaining)) := by
  unfold wakeBody
  cases hlk : lookupTask s.store tid with
  | none => rfl
  | some t =>
    dsimp only
    by_cases hcond : t.state = TaskState.blocked ∧ 0 < t.sleep_until ∧
        t.sleep_until ≤ s.ticks
    · rw [if_pos hcond]
      dsimp only
      refine (add_to_ready_queue_proj _ tid tid').trans ?_
      dsimp only
      refine lookup_map_proj_updateTask _ s.store tid _ ?_ ?_ tid' <;>
        exact fun _ => rfl
    · rw [if_neg hcond]

/-- The whole wake loop never changes a task's priority or remaining
slice. -/
theorem wakeLoop_proj :
    ∀ (fuel : Nat) (s : Sched) (c : Option TaskId) (tid' : TaskId),
      (lookupTask (wakeLoop s fuel c).store tid').map
          (fun u => (u.priority, u.time_slice_remaining))
        = (lookupTask s.store tid').map
            (fun u => (u.priority, u.time_slice_remaining))
  | 0, s, c, tid' => by simp only [wakeLoop]
  | fuel + 1, s, none, tid' => by simp only [wakeLoop]
  | fuel + 1, s, some tid, tid' => by
    simp only [wakeLoop]
    cases hlk : lookupTask (wakeBody s tid).store tid with
    | none => exact wakeBody_proj s tid tid'
    | some t =>
      exact (wakeLoop_proj fuel (wakeBody s tid) t.next tid').trans
        (wakeBody_proj s tid tid')

/-- The wake phase never changes a task's priority or remaining slice. -/
theorem wake_phase_proj (s : Sched) (tid' : TaskId) :
    (lookupTask (scheduler_wake_phase s).store tid').map
        (fun u => (u.priority, u.time_slice_remaining))
      = (lookupTask s.store tid').map
          (fun u => (u.priority, u.time_slice_remaining)) := by
  unfold scheduler_wake_phase
  dsimp only
  refine (wakeLoop_proj _ _ _ tid').trans ?_
  dsimp only
  refine lookup_map_proj_updateTask _ s.store s.current _ ?_ ?_ tid' <;>
    exact fun _ => rfl

/-- **C2**, amended — `scheduler_tick` with a RUNNING current task triggers
a reschedule **iff** the remaining slice reaches zero after the decrement
(`time_slice_remaining ≤ 1` before the tick), or the CRITICAL ready-queue
head is non-null with the current priority below CRITICAL, or the HIGH
ready-queue head is non-null with the current priority below HIGH — the
queue heads being read after the sleeper-wake phase.  Ready tasks at
priorities LOW or NORMAL above the current task's priority do **not**
trigger preemption. -/
theorem scheduler_tick_trigger_iff (s : Sched) (t : TCB)
    (hc : lookupTask s.store s.current = some t)
    (_hr : t.state = TaskState.running) :
    ((scheduler_tick s).2 = true ↔
      (t.time_slice_remaining ≤ 1 ∨
       ((scheduler_wake_phase s).queues PRIORITY_CRITICAL ≠ none ∧
         t.priority < PRIORITY_CRITICAL) ∨
       ((scheduler_wake_phase s).queues PRIORITY_HIGH ≠ none ∧
         t.priority < PRIORITY_HIGH))) := by
  have hwp := wake_phase_proj s s.current
  rw [hc] at hwp
  cases hlk2 : lookupTask (scheduler_wake_phase s).store s.current with
  | none => rw [hlk2] at hwp; simp at hwp
  | some t2 =>
    rw [hlk2] at hwp
    simp only [Option.map_some', Option.some.injEq, Prod.mk.injEq] at hwp
    have hlk3 : lookupTask
        (tick_slice_phase (scheduler_wake_phase s) s.current).store s.current
        = some (if 0 < t2.time_slice_remaining then
            { t2 with time_slice_remaining := t2.time_slice_remaining - 1 }
          else t2) := by
      unfold tick_slice_phase
      dsimp only
      rw [lookupTask_updateTask_self _ _ _
        (fun u => by by_cases h : 0 < u.time_slice_remaining <;> simp [h]), hlk2]
      rfl
    unfold scheduler_tick
    rw [hc]
    dsimp only
    rw [hlk3]
    dsimp only
    have h3pr : (if 0 < t2.time_slice_remaining then
        { t2 with time_slice_remaining := t2.time_slice_remaining - 1 }
      else t2).priority = t.priority := by
      by_cases h : 0 < t2.time_slice_remaining <;> simp [h, hwp.1]
    have h3sl : (if 0 < t2.time_slice_remaining then
        { t2 with time_slice_remaining := t2.time_slice_remaining - 1 }
      else t2).time_slice_remaining = t.time_slice_remaining - 1 := by
      by_cases h : 0 < t2.time_slice_remaining
      · simp only [if_pos h]
        rw [hwp.2]
      · simp only [if_neg h]
        omega
    have hiff : preempt_condition
        (tick_slice_phase (scheduler_wake_phase s) s.current)
        (if 0 < t2.time_slice_remaining then
          { t2 with time_slice_remaining := t2.time_slice_remaining - 1 }
        else t2) ↔
        (t.time_slice_remaining ≤ 1 ∨
         ((scheduler_wake_phase s).queues PRIORITY_CRITICAL ≠ none ∧
           t.priority < PRIORITY_CRITICAL) ∨
         ((scheduler_wake_phase s).queues PRIORITY_HIGH ≠ none ∧
           t.priority < PRIORITY_HIGH)) := by
      unfold preempt_condition
      rw [h3pr, h3sl]
      have hz : t.time_slice_remaining - 1 = 0 ↔ t.time_slice_remaining ≤ 1 := by
        omega
      rw [hz]
      exact Iff.rfl
    by_cases hp : preempt_condition
        (tick_slice_phase (scheduler_wake_phase s) s.current)
        (if 0 < t2.time_slice_remaining then
          { t2 with time_slice_remaining := t2.time_slice_remaining - 1 }
        else t2)
    · rw [if_pos hp]
      exact ⟨fun _ => hiff.mp hp, fun _ => rfl⟩
    · rw [if_neg hp]
      exact ⟨fun h => absurd h Bool.false_ne_true,
        fun h => absurd (hiff.mpr h) hp⟩

/-- Witness for `scheduler_tick_trigger_iff` in the reachable state
`sched2` (idle RUNNING with a full slice, a NORMAL task READY): the tick
does not trigger a reschedule and none of the amended conditions hold. -/
theorem scheduler_tick_trigger_iff_witness :
    (scheduler_tick sched2).2 = true ↔
      ((50 : Nat) ≤ 1 ∨
       ((scheduler_wake_phase sched2).queues PRIORITY_CRITICAL ≠ none ∧
         (0 : Nat) < PRIORITY_CRITICAL) ∨
       ((scheduler_wake_phase sched2).queues PRIORITY_HIGH ≠ none ∧
         (0 : Nat) < PRIORITY_HIGH)) :=
  scheduler_tick_trigger_iff sched2
    ⟨0, "idle", TaskState.running, 0, 5, 50, 50, 0, 0, 0, 1, 0, 0, none, some 1⟩
    (by decide) rfl

/-- **C2**, counterexample — in a reachable state where the idle task
(priority 0) is RUNNING with 50 slice ticks left and a READY task of
strictly higher priority NORMAL exists, `scheduler_tick` does **not**
trigger a reschedule: the code only tests the CRITICAL and HIGH queue
heads, not "any strictly higher priority". -/
theorem scheduler_tick_misses_normal_preemption :
    Reachable sched2 ∧
    (lookupTask sched2.store sched2.current).map
      (fun t => (t.state, t.priority, t.time_slice_remaining))
      = some (TaskState.running, 0, 50) ∧
    (∃ u ∈ sched2.store, u.state = TaskState.ready ∧ 0 < u.priority) ∧
    (scheduler_tick { sched2 with ticks := sched2.ticks + 1 }).2 = false := by
  refine ⟨Reachable.step (Reachable.step (Reachable.init 100) (Step.schedule _))
    (Step.create _ (some "worker") true PRIORITY_NORMAL 1 true true (by decide)),
    ?_, ?_, ?_⟩ <;> decide

/-- **C8**, counterexample — the claim requires rejection of an empty
name, but `task_create("")` is accepted: `task.c:73` checks only the
pointer (`!name`), not `name[0]`.  The call returns id 1 (not the
invalid-id sentinel 0) and the new READY task is linked into the NORMAL
ready queue. -/
theorem task_create_empty_name_succeeds :
    (task_create (initialSched 100) (some "") true PRIORITY_NORMAL 1 true true).1 = 1 ∧
    (1 : TaskId) ≠ 0 ∧
    (∃ t ∈ (task_create (initialSched 100) (some "") true PRIORITY_NORMAL 1
        true true).2.store, t.id = 1 ∧ t.state = .ready) ∧
    1 ∈ queueMembers (task_create (initialSched 100) (some "") true
        PRIORITY_NORMAL 1 true true).2 PRIORITY_NORMAL := by
  decide

/-- **C8**, amended — `task_create` returns the invalid-id sentinel 0
whenever the name is null, the entry pointer is null, or the TCB or stack
allocation fails; in every such case the store, the global-list head and
every ready-queue head pointer are unchanged, so no task is linked into
the global task list or any ready queue.  (The empty string is not
rejected: only the null check `!name` exists in the source.) -/
theorem task_create_failure_cases (s : Sched) (name : Option String)
    (entryNonNull : Bool) (priority flags : Nat) (tcbOk stackOk : Bool)
    (h : name = none ∨ entryNonNull = false ∨ tcbOk = false ∨ stackOk = false) :
    (task_create s name entryNonNull priority flags tcbOk stackOk).1 = 0 ∧
    (task_create s name entryNonNull priority flags tcbOk stackOk).2.store = s.store ∧
    (task_create s name entryNonNull priority flags tcbOk stackOk).2.task_list_head
      = s.task_list_head ∧
    ∀ p, (task_create s name entryNonNull priority flags tcbOk stackOk).2.queues p
      = s.queues p := by
  unfold task_create
  by_cases h1 : name = none ∨ entryNonNull = false
  · simp only [if_pos h1]
    simp
  · simp only [if_neg h1]
    by_cases h2 : tcbOk = false
    · simp only [if_pos h2]
      simp
    · simp only [if_neg h2]
      have h3 : stackOk = false := by tauto
      simp only [if_pos h3]
      simp

/-- Witness for `task_create_failure_cases`: creating with a null entry
point fails and changes neither the store nor any list head. -/
theorem task_create_failure_cases_witness :
    (task_create (initialSched 100) (some "w") false PRIORITY_NORMAL 1 true true).1 = 0 ∧
    (task_create (initialSched 100) (some "w") false PRIORITY_NORMAL 1 true
      true).2.store = (initialSched 100).store ∧
    (task_create (initialSched 100) (some "w") false PRIORITY_NORMAL 1 true
      true).2.task_list_head = (initialSched 100).task_list_head ∧
    ∀ p, (task_create (initialSched 100) (some "w") false PRIORITY_NORMAL 1 true
      true).2.queues p = (initialSched 100).queues p :=
  task_create_failure_cases (initialSched 100) (some "w") false PRIORITY_NORMAL 1
    true true (Or.inr (Or.inl rfl))

/-- **C1** — the selection property fails on a program trace: from the
initial state create W at HIGH, X at HIGH and Z at CRITICAL, schedule
(Z runs), and let the three successive current tasks sleep.
`task_list_add` left a stale `prev` on each previous global-list head, so
the second sleeper's `remove_from_ready_queue` takes the
`task->prev->next` branch, never updates `ready_queues[HIGH]` and splices
away the rest of the queue: in the resulting reachable state W is READY
at priority HIGH but linked into no ready queue, every queue except IDLE
is empty, and `find_next_ready_task` selects the idle task of priority
IDLE — the READY task W has strictly greater priority than the selected
task. -/
theorem find_next_starves_ready_high_task :
    Reachable schedA7 ∧
    (lookupTask schedA7.store 1).map (fun t => (t.state, t.priority))
      = some (TaskState.ready, PRIORITY_HIGH) ∧
    queueMembers schedA7 PRIORITY_LOW = [] ∧
    queueMembers schedA7 PRIORITY_NORMAL = [] ∧
    queueMembers schedA7 PRIORITY_HIGH = [] ∧
    queueMembers schedA7 PRIORITY_CRITICAL = [] ∧
    find_next_ready_task schedA7 = some 0 ∧
    (lookupTask schedA7.store 0).map (fun t => t.priority) = some PRIORITY_IDLE ∧
    ¬ PRIORITY_HIGH ≤ PRIORITY_IDLE := by
  refine ⟨?_, ?_, ?_, ?_, ?_, ?_, ?_, ?_, ?_⟩
  · exact Reachable.step (Reachable.step (Reachable.step (Reachable.step
      (Reachable.step (Reachable.step (Reachable.step (Reachable.init 100)
        (Step.create _ (some "W") true PRIORITY_HIGH 1 true true (by decide)))
        (Step.create _ (some "X") true PRIORITY_HIGH 1 true true (by decide)))
        (Step.create _ (some "Z") true PRIORITY_CRITICAL 1 true true (by decide)))
      (Step.schedule _)) (Step.sleep _ 10)) (Step.sleep _ 10)) (Step.sleep _ 10)
  all_goals decide

/-- **C3** — the queue-membership invariant fails on a program trace:
from the initial state create B at HIGH and D at CRITICAL, schedule
(D runs), let D sleep (B is scheduled), let B create F at CRITICAL and
then sleep.  `task_list_add` for D left a stale `prev` on B while B was
the head of the HIGH ready queue, so B's `remove_from_ready_queue` takes
the `task->prev->next` branch and never updates `ready_queues[HIGH]`: in
the resulting reachable state B is BLOCKED yet still linked as the head
of the HIGH ready queue — a task whose state is not READY is linked into
a ready queue. -/
theorem blocked_task_heads_ready_queue :
    Reachable schedB6 ∧
    (lookupTask schedB6.store 1).map (fun t => t.state) = some TaskState.blocked ∧
    schedB6.queues PRIORITY_HIGH = some 1 ∧
    queueMembers schedB6 PRIORITY_HIGH = [1] := by
  refine ⟨?_, ?_, ?_, ?_⟩
  · exact Reachable.step (Reachable.step (Reachable.step (Reachable.step
      (Reachable.step (Reachable.step (Reachable.init 100)
        (Step.create _ (some "B") true PRIORITY_HIGH 1 true true (by decide)))
        (Step.create _ (some "D") true PRIORITY_CRITICAL 1 true true (by decide)))
      (Step.schedule _)) (Step.sleep _ 10))
      (Step.create _ (some "F") true PRIORITY_CRITICAL 1 true true (by decide)))
      (Step.sleep _ 10)
  all_goals decide

end MyOS
